import Mathlib

/-!
Shallow embedding of the email fetch / analyze pipeline:
the `gmail-analyze` edge function (request validation, Gemini reply
parsing, result merging, priority sorting) and the `gmail-fetch` edge
function (listing, per-message hydration, base64url body decoding).
Machine behaviour such as JavaScript truthiness (`x || d`), `atob`
(WHATWG forgiving-base64 decode, which throws on malformed input) and
thrown exceptions (modelled with `Except`) is made explicit.
-/

namespace EmailScribe

/-- JavaScript `v || d` on an optional string: `undefined`/missing and the
empty string are falsy and fall through to the default. -/
def jsOrElse (v : Option String) (d : String) : String :=
  match v with
  | some s => if s = "" then d else s
  | none => d

/-- JavaScript falsiness of an optional string value
(`undefined` and `""` are falsy). -/
def jsFalsyStr (v : Option String) : Bool :=
  match v with
  | some s => s == ""
  | none => true

/-- `s.substring(0, n)` of JavaScript, modelled on the character list. -/
def jsSubstring (s : String) (n : Nat) : String :=
  String.mk (s.data.take n)

/-- `s.length` of JavaScript, modelled as the character count. -/
def jsLength (s : String) : Nat :=
  s.data.length

/-- The flat normalized email record (fields of the `AnalyzeRequest`
element type and of the records produced by `gmail-fetch`). -/
structure NormalizedEmail where
  id : String
  subject : String
  «from» : String
  date : String
  snippet : String
  body : String
deriving DecidableEq, Repr

/-- The runtime shape of a merged output record of `gmail-analyze`
(the object spread `{...email, priority, reasoning, gmailUrl}` keeps
every input field, including `body`). -/
structure PrioritizedEmail where
  id : String
  subject : String
  «from» : String
  date : String
  snippet : String
  body : String
  priority : String
  reasoning : String
  gmailUrl : String
deriving DecidableEq, Repr

/-- One element of the parsed Gemini reply as consumed by the merge:
`result.id`, `result.priority`, `result.reasoning` may each be absent
(`undefined`), modelled as `Option String`. -/
structure AnalysisResult where
  id : Option String
  priority : Option String
  reasoning : Option String
deriving DecidableEq, Repr

/-- The merge of `gmail-analyze` (`emails.map` over the full input batch):
look up the first analysis result with matching id; adopt its
`priority`/`reasoning` through JavaScript `||` defaults; attach the
deep link derived from the id. -/
def prioritizedEmails (emails : List NormalizedEmail)
    (analysisResults : List AnalysisResult) : List PrioritizedEmail :=
  emails.map fun email =>
    let analysis := analysisResults.find? fun r => r.id == some email.id
    { id := email.id
      subject := email.subject
      «from» := email.«from»
      date := email.date
      snippet := email.snippet
      body := email.body
      priority := jsOrElse (analysis.bind AnalysisResult.priority) "medium"
      reasoning := jsOrElse (analysis.bind AnalysisResult.reasoning) "No analysis available"
      gmailUrl := "https://mail.google.com/mail/u/0/#inbox/" ++ email.id }

/-- The fixed ordinal map `\x7b high: 3, medium: 2, low: 1 \x7d`. The source
object lookup yields `undefined` on any other key; the sort model below is
only claimed faithful when every priority is one of the three keys, and
other keys are mapped to 0 to keep the function total. -/
def priorityOrder (p : String) : Nat :=
  if p = "high" then 3 else if p = "medium" then 2 else if p = "low" then 1 else 0

/-- The comparator-induced order of
`sort((a, b) => priorityOrder[b.priority] - priorityOrder[a.priority])`:
`a` may precede `b` exactly when the comparator is `≤ 0`. -/
def priorityLE (a b : PrioritizedEmail) : Bool :=
  priorityOrder b.priority ≤ priorityOrder a.priority

/-- `Array.prototype.sort` with the priority comparator: a stable sort
placing higher `priorityOrder` first. -/
def sortByPriority (l : List PrioritizedEmail) : List PrioritizedEmail :=
  l.mergeSort priorityLE

/-- The prompt copy of each email sent for classification
(`emails.slice(0, 100)`, body capped at 200 characters with the
snippet as fallback source text). -/
structure AnalysisInput where
  id : String
  subject : String
  «from» : String
  snippet : String
  body : String
deriving DecidableEq, Repr

/-- `emailsForAnalysis` of `gmail-analyze`: the truncated batch embedded
into the classification prompt. -/
def emailsForAnalysis (emails : List NormalizedEmail) : List AnalysisInput :=
  (emails.take 100).map fun email =>
    { id := email.id
      subject := email.subject
      «from» := email.«from»
      snippet := email.snippet
      body := jsOrElse (some (jsSubstring email.body 200)) email.snippet }

/-- JSON values (numbers kept as their raw source text, which is all the
pipeline ever needs: it only reads string-valued fields). -/
inductive Json where
  | null
  | bool (b : Bool)
  | num (raw : String)
  | str (s : String)
  | arr (elems : List Json)
  | obj (fields : List (String × Json))

/-- JSON insignificant whitespace. -/
def isJsonWs (c : Char) : Bool :=
  c == ' ' || c == '\t' || c == '\n' || c == '\r'

/-- Drop leading JSON whitespace. -/
def skipWs (cs : List Char) : List Char :=
  cs.dropWhile isJsonWs

/-- Value of a hexadecimal digit. -/
def hexVal (c : Char) : Option Nat :=
  if '0' ≤ c ∧ c ≤ '9' then some (c.toNat - 48)
  else if 'a' ≤ c ∧ c ≤ 'f' then some (c.toNat - 97 + 10)
  else if 'A' ≤ c ∧ c ≤ 'F' then some (c.toNat - 65 + 10)
  else none

/-- Body of a JSON string literal after the opening quote: collected
characters plus the remainder after the closing quote. -/
def parseStringBody (acc : List Char) : List Char → Option (String × List Char)
  | '"' :: rest => some (String.mk acc.reverse, rest)
  | '\\' :: 'u' :: a :: b :: c :: d :: rest => do
    let va ← hexVal a
    let vb ← hexVal b
    let vc ← hexVal c
    let vd ← hexVal d
    parseStringBody (Char.ofNat (va * 4096 + vb * 256 + vc * 16 + vd) :: acc) rest
  | '\\' :: e :: rest =>
    let dec : Option Char :=
      if e = '"' then some '"'
      else if e = '\\' then some '\\'
      else if e = '/' then some '/'
      else if e = 'b' then some '\x08'
      else if e = 'f' then some '\x0c'
      else if e = 'n' then some '\n'
      else if e = 'r' then some '\r'
      else if e = 't' then some '\t'
      else none
    match dec with
    | some ch => parseStringBody (ch :: acc) rest
    | none => none
  | c :: rest => parseStringBody (c :: acc) rest
  | [] => none

/-- Characters that may appear in a JSON number token. -/
def isNumChar (c : Char) : Bool :=
  ('0' ≤ c && c ≤ '9') || c == '-' || c == '+' || c == '.' || c == 'e' || c == 'E'

/-- A JSON number token: the raw span of number characters. -/
def parseNumber (cs : List Char) : Option (Json × List Char) :=
  let tok := cs.takeWhile isNumChar
  if tok.isEmpty then none else some (Json.num (String.mk tok), cs.dropWhile isNumChar)

mutual

/-- Fuel-indexed recursive-descent parse of one JSON value. -/
def parseValue : Nat → List Char → Option (Json × List Char)
  | 0, _ => none
  | fuel + 1, cs =>
    match skipWs cs with
    | '"' :: rest => (parseStringBody [] rest).map fun (s, r) => (Json.str s, r)
    | '[' :: rest => (parseElems fuel rest).map fun (xs, r) => (Json.arr xs, r)
    | '{' :: rest => (parseFields fuel rest).map fun (fs, r) => (Json.obj fs, r)
    | 't' :: 'r' :: 'u' :: 'e' :: rest => some (Json.bool true, rest)
    | 'f' :: 'a' :: 'l' :: 's' :: 'e' :: rest => some (Json.bool false, rest)
    | 'n' :: 'u' :: 'l' :: 'l' :: rest => some (Json.null, rest)
    | rest => parseNumber rest

/-- Elements of a JSON array after the opening bracket. -/
def parseElems : Nat → List Char → Option (List Json × List Char)
  | 0, _ => none
  | fuel + 1, cs =>
    match skipWs cs with
    | ']' :: rest => some ([], rest)
    | cs' => parseElemsRest fuel cs'

/-- One or more comma-separated array elements. -/
def parseElemsRest : Nat → List Char → Option (List Json × List Char)
  | 0, _ => none
  | fuel + 1, cs => do
    let (v, rest) ← parseValue fuel cs
    match skipWs rest with
    | ',' :: rest' => (parseElemsRest fuel rest').map fun (xs, r) => (v :: xs, r)
    | ']' :: rest' => some ([v], rest')
    | _ => none

/-- Members of a JSON object after the opening brace. -/
def parseFields : Nat → List Char → Option (List (String × Json) × List Char)
  | 0, _ => none
  | fuel + 1, cs =>
    match skipWs cs with
    | '}' :: rest => some ([], rest)
    | cs' => parseFieldsRest fuel cs'

/-- One or more comma-separated object members. -/
def parseFieldsRest : Nat → List Char → Option (List (String × Json) × List Char)
  | 0, _ => none
  | fuel + 1, cs =>
    match skipWs cs with
    | '"' :: rest => do
      let (k, rest₁) ← parseStringBody [] rest
      match skipWs rest₁ with
      | ':' :: rest₂ => do
        let (v, rest₃) ← parseValue fuel rest₂
        match skipWs rest₃ with
        | ',' :: rest₄ => (parseFieldsRest fuel rest₄).map fun (fs, r) => ((k, v) :: fs, r)
        | '}' :: rest₄ => some ([(k, v)], rest₄)
        | _ => none
      | _ => none
    | _ => none

end

/-- `JSON.parse`: one value, arbitrary surrounding whitespace, full
consumption of the input. -/
def parseJsonTop (cs : List Char) : Option Json :=
  match parseValue (2 * cs.length + 8) cs with
  | some (v, rest) => if (skipWs rest).isEmpty then some v else none
  | none => none

/-- The span matched by the greedy regular expression
`/\[[\s\S]*\]/`: from the first opening bracket to the last closing
bracket at or after it. -/
def firstBracketSpan (cs : List Char) : Option (List Char) :=
  let t := cs.dropWhile (· ≠ '[')
  let u := (t.reverse.dropWhile (· ≠ ']')).reverse
  if u.isEmpty then none else some u

/-- The reply-parsing step of `gmail-analyze`: try the bracketed span if
one exists, otherwise the raw text; `none` models the `JSON.parse`
exception. -/
def parseAnalysisJson (responseText : String) : Option Json :=
  let cs := responseText.data
  match firstBracketSpan cs with
  | some m => parseJsonTop m
  | none => parseJsonTop cs

/-- A string-valued field of a parsed JSON object; `none` models
`undefined` (absent field, non-object value) and also abstracts
non-string field values. -/
def jsonStrField (j : Json) (k : String) : Option String :=
  match j with
  | Json.obj fields =>
    match fields.find? fun f => f.fst == k with
    | some (_, Json.str s) => some s
    | _ => none
  | _ => none

/-- Projection of one parsed reply element onto the fields the merge
reads. -/
def toAnalysisResult (j : Json) : AnalysisResult :=
  { id := jsonStrField j "id"
    priority := jsonStrField j "priority"
    reasoning := jsonStrField j "reasoning" }

/-- The parsed classification result set of a reply text: the bracketed
(or raw) span parsed as a JSON array, each element projected. `none`
when the parse fails or the parsed value is not an array. -/
def parsedResults (responseText : String) : Option (List AnalysisResult) :=
  match parseAnalysisJson responseText with
  | some (Json.arr elems) => some (elems.map toAnalysisResult)
  | _ => none

/-- ASCII whitespace removed by forgiving-base64 decoding. -/
def isB64Ws (c : Char) : Bool :=
  c == ' ' || c == '\t' || c == '\n' || c == '\x0c' || c == '\r'

/-- Value of one character of the standard base64 alphabet. -/
def b64Val (c : Char) : Option Nat :=
  if 'A' ≤ c ∧ c ≤ 'Z' then some (c.toNat - 65)
  else if 'a' ≤ c ∧ c ≤ 'z' then some (c.toNat - 97 + 26)
  else if '0' ≤ c ∧ c ≤ '9' then some (c.toNat - 48 + 52)
  else if c = '+' then some 62
  else if c = '/' then some 63
  else none

/-- Remove one trailing padding character. -/
def stripOneEq (l : List Char) : List Char :=
  if l.getLast? = some '=' then l.dropLast else l

/-- Reassemble 6-bit groups into bytes (as latin-1 characters), dropping
leftover low bits as forgiving-base64 prescribes. -/
def decodeGroups : List Nat → List Char
  | a :: b :: c :: d :: rest =>
    Char.ofNat (a * 4 + b / 16) :: Char.ofNat (b % 16 * 16 + c / 4) ::
      Char.ofNat (c % 4 * 64 + d) :: decodeGroups rest
  | [a, b] => [Char.ofNat (a * 4 + b / 16)]
  | [a, b, c] => [Char.ofNat (a * 4 + b / 16), Char.ofNat (b % 16 * 16 + c / 4)]
  | _ => []

/-- `atob`: the WHATWG forgiving-base64 decode. Strips ASCII whitespace,
strips up to two trailing `=` when the length is a multiple of four,
then fails (`none`, modelling the thrown `InvalidCharacterError`) on a
length residue of one or on any character outside the base64 alphabet. -/
def forgivingBase64 (s : String) : Option String :=
  let data := s.data.filter fun c => !isB64Ws c
  let data := if data.length % 4 == 0 then stripOneEq (stripOneEq data) else data
  if data.length % 4 == 1 then none
  else
    match data.mapM b64Val with
    | some vals => some (String.mk (decodeGroups vals))
    | none => none

/-- The source's `atob` call on a blob: every `-` is first replaced by
`+` and every `_` by `/` (base64url to standard alphabet), then the
forgiving decode runs. -/
def decodeB64url (s : String) : Option String :=
  forgivingBase64 (String.mk (s.data.map fun c =>
    if c = '-' then '+' else if c = '_' then '/' else c))

/-- The message of the exception thrown by `atob` on malformed input
(the exact runtime wording is irrelevant to every property below). -/
def atobErrorMessage : String := "Failed to decode base64"

/-- Decode a blob or raise (modelling the `atob` throw). -/
def decodeOrThrow (s : String) : Except String String :=
  match decodeB64url s with
  | some r => Except.ok r
  | none => Except.error atobErrorMessage

/-- The parsed body of an analyze request; either field may be absent
from the JSON payload. -/
structure AnalyzeRequest where
  accessToken : Option String
  emails : Option (List NormalizedEmail)
deriving Repr

/-- Outcome of the Gemini call, an input of the handler model: non-ok
HTTP status, a response without candidate text, or the reply text. -/
inductive GeminiOutcome where
  | httpError (status : Nat)
  | noText
  | text (responseText : String)

/-- The observable HTTP response of `gmail-analyze`. -/
structure AnalyzeResponse where
  status : Nat
  error : Option String
  prioritizedEmails : Option (List PrioritizedEmail)
deriving Repr

/-- Handler response plus whether the Gemini endpoint was contacted. -/
structure AnalyzeOutcome where
  response : AnalyzeResponse
  geminiCalled : Bool
deriving Repr

/-- The validation `!accessToken || !emails || emails.length === 0`. -/
def invalidAnalyzeRequest (req : AnalyzeRequest) : Bool :=
  jsFalsyStr req.accessToken ||
    (match req.emails with
     | none => true
     | some l => l.isEmpty)

/-- The `gmail-analyze` handler on a parsed request body. Branch order
follows the source: Gemini-key check, then request validation, then the
classification call, then reply parsing, merging and sorting. A parsed
reply that is not an array makes the `analysisResults.find` call throw;
the thrown message lands in the generic 500 handler. -/
def gmailAnalyze (geminiApiKey : Option String) (req : AnalyzeRequest)
    (gemini : GeminiOutcome) : AnalyzeOutcome :=
  if jsFalsyStr geminiApiKey then
    ⟨⟨500, some "Gemini API key not configured", none⟩, false⟩
  else if invalidAnalyzeRequest req then
    ⟨⟨400, some "Access token and emails are required", none⟩, false⟩
  else
    match gemini with
    | GeminiOutcome.httpError status =>
      ⟨⟨status, some "Failed to analyze emails with Gemini", none⟩, true⟩
    | GeminiOutcome.noText =>
      ⟨⟨500, some "No response from Gemini", none⟩, true⟩
    | GeminiOutcome.text responseText =>
      match parseAnalysisJson responseText with
      | none => ⟨⟨500, some "Invalid response format from Gemini", none⟩, true⟩
      | some (Json.arr elems) =>
        ⟨⟨200, none,
          some (sortByPriority
            (prioritizedEmails (req.emails.getD []) (elems.map toAnalysisResult)))⟩, true⟩
      | some _ =>
        ⟨⟨500, some "analysisResults.find is not a function", none⟩, true⟩

/-- One header of a message detail payload. -/
structure Header where
  name : String
  value : String
deriving DecidableEq, Repr

/-- A (possibly nested) MIME part: MIME type, the optional blob
`part.body?.data`, and nested sub-parts. The source's scan reads only
the top level of this tree; the nested list is needed to compare
against the specified depth-first scan. -/
inductive MessagePart where
  | mk (mimeType : String) (data : Option String) (parts : List MessagePart)

/-- MIME type of a part. -/
def MessagePart.mimeType : MessagePart → String
  | MessagePart.mk m _ _ => m

/-- Blob of a part (`part.body?.data`). -/
def MessagePart.data : MessagePart → Option String
  | MessagePart.mk _ d _ => d

/-- Sub-parts of a part. -/
def MessagePart.parts : MessagePart → List MessagePart
  | MessagePart.mk _ _ ps => ps

/-- The content payload of one message detail: headers, the top-level
blob `payload.body?.data`, and the optional parts list. -/
structure GmailPayload where
  headers : List Header
  data : Option String
  parts : Option (List MessagePart)

/-- One fetched message detail (`payload` may be absent; `snippet` may
be absent). -/
structure MessageDetail where
  payload : Option GmailPayload
  snippet : Option String

/-- The truthiness test the source applies to a blob before decoding
(`if (part.body?.data)`): present and non-empty. -/
def truthyBlob (o : Option String) : Bool :=
  match o with
  | some s => !(s == "")
  | none => false

/-- The loop condition of the part scan:
`part.mimeType === 'text/plain' && part.body?.data`. -/
def isPlainMatch (part : MessagePart) : Bool :=
  part.mimeType == "text/plain" && truthyBlob part.data

/-- The source's scan over the immediate parts list: first part
satisfying the loop condition wins; its blob is decoded (a decode
failure propagates as a thrown exception); nested parts are never
visited. -/
def scanParts : List MessagePart → Except String String
  | [] => Except.ok ""
  | part :: rest =>
    if isPlainMatch part then decodeOrThrow (part.data.getD "")
    else scanParts rest

/-- The body extraction of `gmail-fetch`: decode the top-level blob if
it is truthy, otherwise scan the immediate parts if a parts array is
present, otherwise the empty string. -/
def bodyFromPayload (p : GmailPayload) : Except String String :=
  if truthyBlob p.data then decodeOrThrow (p.data.getD "")
  else
    match p.parts with
    | some parts => scanParts parts
    | none => Except.ok ""

/-- The body computation of one message detail: the empty string when
no payload exists (`detail.payload?.body?.data` and
`detail.payload?.parts` are both falsy), otherwise the payload
extraction (which may throw). -/
def hydrateBody (detail : MessageDetail) : Except String String :=
  match detail.payload with
  | some p => bodyFromPayload p
  | none => Except.ok ""

/-- `detail.payload?.headers || []`. -/
def detailHeaders (detail : MessageDetail) : List Header :=
  match detail.payload with
  | some p => p.headers
  | none => []

/-- Hydration of one successful message detail into a normalized
record: header extraction with JavaScript `||` defaults, body decoding
(which may throw), and the 500-character truncation with ellipsis
marker. -/
def hydrateDetail (id : String) (detail : MessageDetail) : Except String NormalizedEmail :=
  let headers := detailHeaders detail
  let subject := jsOrElse ((headers.find? fun h => h.name == "Subject").map Header.value) "No Subject"
  let sender := jsOrElse ((headers.find? fun h => h.name == "From").map Header.value) "Unknown Sender"
  let date := jsOrElse ((headers.find? fun h => h.name == "Date").map Header.value) ""
  match hydrateBody detail with
  | Except.error e => Except.error e
  | Except.ok body =>
    Except.ok
      { id := id
        subject := subject
        «from» := sender
        date := date
        snippet := jsOrElse detail.snippet ""
        body := jsSubstring body 500 ++ (if 500 < jsLength body then "..." else "") }

/-- Outcome of one per-message detail fetch: non-ok status (the message
is dropped) or a detail payload. -/
inductive FetchOutcome where
  | fail
  | ok (detail : MessageDetail)

/-- Whether a detail fetch succeeded. -/
def fetchOk : FetchOutcome → Bool
  | FetchOutcome.fail => false
  | FetchOutcome.ok _ => true

/-- Outcome of the listing call: non-ok status, or a body whose
`messages` field may be absent. -/
inductive ListingOutcome where
  | httpError (status : Nat)
  | ok (messages : Option (List String))

/-- The fan-out over message ids (`Promise.all` over the map): failed
fetches yield `null` entries, a thrown hydration rejects the whole
join. -/
def hydrateAll (detailOf : String → FetchOutcome) :
    List String → Except String (List (Option NormalizedEmail))
  | [] => Except.ok []
  | id :: rest =>
    let head : Except String (Option NormalizedEmail) :=
      match detailOf id with
      | FetchOutcome.fail => Except.ok none
      | FetchOutcome.ok d => (hydrateDetail id d).map some
    match head, hydrateAll detailOf rest with
    | Except.error e, _ => Except.error e
    | Except.ok _, Except.error e => Except.error e
    | Except.ok x, Except.ok xs => Except.ok (x :: xs)

/-- The observable HTTP response of `gmail-fetch`. -/
structure FetchResponse where
  status : Nat
  error : Option String
  messages : Option (List NormalizedEmail)

/-- The `gmail-fetch` handler on a parsed request body: token check,
listing call, per-message hydration with null-filtering; an exception
anywhere (in particular a thrown `atob`) lands in the generic 500
handler. -/
def gmailFetch (accessToken : Option String) (maxResults : Option Nat)
    (listing : ListingOutcome) (detailOf : String → FetchOutcome) : FetchResponse :=
  let maxRes := maxResults.getD 10
  if jsFalsyStr accessToken then
    ⟨400, some "Access token is required", none⟩
  else
    match listing with
    | ListingOutcome.httpError status =>
      ⟨status, some "Failed to fetch emails from Gmail", none⟩
    | ListingOutcome.ok none =>
      ⟨200, none, some []⟩
    | ListingOutcome.ok (some ids) =>
      match hydrateAll detailOf (ids.take maxRes) with
      | Except.error e => ⟨500, some e, none⟩
      | Except.ok entries => ⟨200, none, some (entries.filterMap id)⟩

mutual

/-- Stated from the specification: depth-first search of one part's
subtree for the first plain-text part carrying a blob. -/
def dfsPartFirstPlainBlob : MessagePart → Option String
  | MessagePart.mk mime data sub =>
    if mime == "text/plain" && truthyBlob data then data
    else dfsFirstPlainBlob sub

/-- Stated from the specification for comparison with `scanParts`:
depth-first scan of the parts tree for the first part whose MIME type
is exactly plain text and which carries a blob, returning that blob. -/
def dfsFirstPlainBlob : List MessagePart → Option String
  | [] => none
  | part :: rest =>
    match dfsPartFirstPlainBlob part with
    | some d => some d
    | none => dfsFirstPlainBlob rest

end

/-- Stated from the specification for comparison with
`bodyFromPayload`: top-level blob first, else the depth-first scan,
else the empty string; decoding failure falls back to the empty string
rather than raising. -/
def bodyDecoderSpec (p : GmailPayload) : String :=
  if truthyBlob p.data then (decodeB64url (p.data.getD "")).getD ""
  else
    match dfsFirstPlainBlob (p.parts.getD []) with
    | some d => (decodeB64url d).getD ""
    | none => ""

/-! Concrete sample data used by witnesses. -/

/-- A sample normalized email. -/
def sampleEmail : NormalizedEmail :=
  { id := "m1", subject := "Subj", «from» := "Alice", date := "2024-01-01",
    snippet := "snip", body := "body text" }

/-- A classification result carrying an unrecognized non-empty priority. -/
def urgentResult : AnalysisResult :=
  { id := some "m1", priority := some "urgent", reasoning := some "because" }

/-! ### Claim theorems -/

/-- C10: with the Gemini credential unconfigured (absent or empty), every
analyze request — including requests with a missing token or an empty
email list — receives status 500 with the configuration error, before
any validation and without any classification call; the 400 branch is
unreachable. -/
theorem analyze_unconfigured_credential_short_circuits :
    ∀ (req : AnalyzeRequest) (gemini : GeminiOutcome),
      gmailAnalyze none req gemini =
        ⟨⟨500, some "Gemini API key not configured", none⟩, false⟩ ∧
      gmailAnalyze (some "") req gemini =
        ⟨⟨500, some "Gemini API key not configured", none⟩, false⟩ := by
  intro req gemini
  exact ⟨rfl, rfl⟩

/-- C6: with the Gemini credential configured, a request whose access
token is missing or empty, or whose email list is missing or empty,
receives status 400 with the validation error and no classification
call is made. -/
theorem analyze_invalid_request_400 :
    ∀ (k : String) (req : AnalyzeRequest) (gemini : GeminiOutcome),
      k ≠ "" →
      (req.accessToken = none ∨ req.accessToken = some "" ∨
        req.emails = none ∨ req.emails = some []) →
      gmailAnalyze (some k) req gemini =
        ⟨⟨400, some "Access token and emails are required", none⟩, false⟩ := by
  intro k req gemini hk hbad
  have h1 : jsFalsyStr (some k) = false := by simp [jsFalsyStr, hk]
  have h2 : invalidAnalyzeRequest req = true := by
    rcases hbad with h | h | h | h <;> simp [invalidAnalyzeRequest, jsFalsyStr, h]
  simp [gmailAnalyze, h1, h2]

/-- Witness for C6 at a concrete invalid request. -/
theorem analyze_invalid_request_400_witness :
    gmailAnalyze (some "key") ⟨none, some [sampleEmail]⟩ GeminiOutcome.noText =
      ⟨⟨400, some "Access token and emails are required", none⟩, false⟩ :=
  analyze_invalid_request_400 "key" ⟨none, some [sampleEmail]⟩ GeminiOutcome.noText
    (by decide) (Or.inl rfl)

/-- C1: the merge emits exactly one output per input email (the length
is preserved and the i-th output is derived from the i-th input, so
nothing is dropped or duplicated); an email matching no classification
result gets priority `medium` and reasoning `No analysis available`;
and every successful analyze response has exactly as many entries as
the full pre-truncation input batch. -/
theorem merger_one_output_per_input :
    (∀ (emails : List NormalizedEmail) (results : List AnalysisResult),
      (prioritizedEmails emails results).length = emails.length) ∧
    (∀ (emails : List NormalizedEmail) (results : List AnalysisResult)
        (i : Nat) (e : NormalizedEmail), emails[i]? = some e →
      ∃ o, (prioritizedEmails emails results)[i]? = some o ∧ o.id = e.id ∧
        ((∀ r ∈ results, r.id ≠ some e.id) →
          o.priority = "medium" ∧ o.reasoning = "No analysis available")) ∧
    (∀ (key : Option String) (req : AnalyzeRequest) (gemini : GeminiOutcome)
        (l : List PrioritizedEmail),
      (gmailAnalyze key req gemini).response.prioritizedEmails = some l →
      l.length = (req.emails.getD []).length) := by
  refine ⟨?_, ?_, ?_⟩
  · intro emails results
    simp [prioritizedEmails]
  · intro emails results i e he
    have hmap : (prioritizedEmails emails results)[i]? = some
        { id := e.id, subject := e.subject, «from» := e.«from», date := e.date,
          snippet := e.snippet, body := e.body,
          priority := jsOrElse
            ((results.find? fun r => r.id == some e.id).bind AnalysisResult.priority) "medium",
          reasoning := jsOrElse
            ((results.find? fun r => r.id == some e.id).bind AnalysisResult.reasoning)
            "No analysis available",
          gmailUrl := "https://mail.google.com/mail/u/0/#inbox/" ++ e.id } := by
      simp [prioritizedEmails, List.getElem?_map, he]
    refine ⟨_, hmap, rfl, ?_⟩
    intro hnone
    have hfind : results.find? (fun r => r.id == some e.id) = none := by
      rw [List.find?_eq_none]
      intro r hr
      simpa using hnone r hr
    simp [hfind, jsOrElse]
  · intro key req gemini l h
    unfold gmailAnalyze at h
    split at h
    · simp at h
    · split at h
      · simp at h
      · split at h
        · simp at h
        · simp at h
        · split at h
          · simp at h
          · simp only [Option.some.injEq] at h
            subst h
            simp [sortByPriority, prioritizedEmails]
          · simp at h

/-- The merged record for `sampleEmail` with no matching result. -/
def fallbackMerged : PrioritizedEmail :=
  { id := "m1", subject := "Subj", «from» := "Alice", date := "2024-01-01",
    snippet := "snip", body := "body text", priority := "medium",
    reasoning := "No analysis available",
    gmailUrl := "https://mail.google.com/mail/u/0/#inbox/m1" }

/-- Witness for C1 at a concrete batch with no classification results. -/
theorem merger_one_output_per_input_witness :
    (prioritizedEmails [sampleEmail] [])[0]? = some fallbackMerged ∧
    fallbackMerged.priority = "medium" ∧
    fallbackMerged.reasoning = "No analysis available" := by
  obtain ⟨o, h1, _hid, h3⟩ :=
    merger_one_output_per_input.2.1 [sampleEmail] [] 0 sampleEmail rfl
  have ho : o = fallbackMerged := Option.some.inj (h1.symm.trans rfl)
  exact ⟨rfl, ho ▸ (h3 (by simp)).1, ho ▸ (h3 (by simp)).2⟩

/-- An email whose body is 250 characters long, past the 200-character
prompt cap. -/
def longEmail : NormalizedEmail :=
  { id := "m2", subject := "Long", «from» := "Bob", date := "2024-02-02",
    snippet := "sn", body := String.mk (List.replicate 250 'a') }

/-- C9: the merge copies every input field verbatim onto the output
record — including bodies of any length, since the 200-character cap is
applied only to the prompt copy in `emailsForAnalysis` — adding only
`priority`, `reasoning` and `gmailUrl`. -/
theorem merge_preserves_input_fields :
    (∀ (emails : List NormalizedEmail) (results : List AnalysisResult)
        (i : Nat) (e : NormalizedEmail) (o : PrioritizedEmail),
      emails[i]? = some e → (prioritizedEmails emails results)[i]? = some o →
      o.id = e.id ∧ o.subject = e.subject ∧ o.«from» = e.«from» ∧ o.date = e.date ∧
        o.snippet = e.snippet ∧ o.body = e.body) ∧
    (∀ (emails : List NormalizedEmail) (i : Nat) (a : AnalysisInput) (e : NormalizedEmail),
      emails[i]? = some e → (emailsForAnalysis emails)[i]? = some a →
      a.body = jsOrElse (some (jsSubstring e.body 200)) e.snippet) := by
  constructor
  · intro emails results i e o he ho
    simp only [prioritizedEmails, List.getElem?_map, he, Option.map_some'] at ho
    cases ho
    exact ⟨rfl, rfl, rfl, rfl, rfl, rfl⟩
  · intro emails i a e he ha
    have hi : i < 100 := by
      by_contra hge
      have hnone : (emailsForAnalysis emails)[i]? = none := by
        apply List.getElem?_eq_none
        simp only [emailsForAnalysis, List.length_map, List.length_take]
        omega
      rw [hnone] at ha
      exact Option.noConfusion ha
    simp only [emailsForAnalysis, List.getElem?_map, List.getElem?_take_of_lt hi, he,
      Option.map_some'] at ha
    cases ha
    rfl

/-- The merged record for `longEmail` with no matching result. -/
def longMerged : PrioritizedEmail :=
  { id := "m2", subject := "Long", «from» := "Bob", date := "2024-02-02",
    snippet := "sn", body := String.mk (List.replicate 250 'a'), priority := "medium",
    reasoning := "No analysis available",
    gmailUrl := "https://mail.google.com/mail/u/0/#inbox/m2" }

/-- The prompt copy of `sampleEmail`. -/
def samplePrompt : AnalysisInput :=
  { id := "m1", subject := "Subj", «from» := "Alice", snippet := "snip",
    body := "body text" }

/-- Witness for C9: a 250-character body survives the merge verbatim,
while the prompt copy carries the capped `||` value. -/
theorem merge_preserves_input_fields_witness :
    ((prioritizedEmails [longEmail] [])[0]? = some longMerged ∧
      longMerged.body = longEmail.body) ∧
    ((emailsForAnalysis [sampleEmail])[0]? = some samplePrompt ∧
      samplePrompt.body = jsOrElse (some (jsSubstring sampleEmail.body 200)) sampleEmail.snippet) := by
  constructor
  · exact ⟨rfl,
      (merge_preserves_input_fields.1 [longEmail] [] 0 longEmail longMerged rfl rfl).2.2.2.2.2⟩
  · exact ⟨rfl, merge_preserves_input_fields.2 [sampleEmail] 0 samplePrompt sampleEmail rfl rfl⟩

/-- The record `sampleEmail` merges to under `urgentResult`. -/
def urgentMerged : PrioritizedEmail :=
  { id := "m1", subject := "Subj", «from» := "Alice", date := "2024-01-01",
    snippet := "snip", body := "body text", priority := "urgent",
    reasoning := "because",
    gmailUrl := "https://mail.google.com/mail/u/0/#inbox/m1" }

/-- C7 counterexample: a matching classification result with the
unrecognized non-empty priority `urgent` is passed through verbatim by
the merge, not defaulted to `medium` as the claim states. -/
theorem unrecognized_priority_passes_through :
    (prioritizedEmails [sampleEmail] [urgentResult])[0]? = some urgentMerged ∧
    urgentMerged.priority = "urgent" ∧ urgentMerged.priority ≠ "medium" := by
  exact ⟨rfl, rfl, by decide⟩

/-- C7 amended: for an email whose id matches a classification result,
the merged priority falls back to `medium` exactly when the result's
priority field is missing or empty (JavaScript falsy); an unrecognized
non-empty priority string is adopted unchanged. -/
theorem priority_default_only_on_falsy :
    ∀ (emails : List NormalizedEmail) (results : List AnalysisResult)
      (i : Nat) (e : NormalizedEmail) (o : PrioritizedEmail) (r : AnalysisResult),
      emails[i]? = some e →
      (prioritizedEmails emails results)[i]? = some o →
      results.find? (fun r' => r'.id == some e.id) = some r →
      ((r.priority = none ∨ r.priority = some "") → o.priority = "medium") ∧
      (∀ p, r.priority = some p → p ≠ "" → o.priority = p) := by
  intro emails results i e o r he ho hr
  simp only [prioritizedEmails, List.getElem?_map, he, Option.map_some'] at ho
  cases ho
  constructor
  · intro hfalsy
    rcases hfalsy with h | h <;> simp [hr, h, jsOrElse]
  · intro p hp hne
    simp [hr, hp, jsOrElse, hne]

/-- Witness for C7's amended claim at the concrete `urgent` result. -/
theorem priority_default_only_on_falsy_witness :
    (prioritizedEmails [sampleEmail] [urgentResult])[0]? = some urgentMerged ∧
    urgentMerged.priority = "urgent" := by
  obtain ⟨_hdef, hpass⟩ :=
    priority_default_only_on_falsy [sampleEmail] [urgentResult] 0 sampleEmail urgentMerged
      urgentResult rfl rfl rfl
  exact ⟨rfl, hpass "urgent" rfl (by decide)⟩

/-- The comparator order is transitive. -/
theorem priorityLE_trans : ∀ a b c : PrioritizedEmail,
    priorityLE a b → priorityLE b c → priorityLE a c := by
  intro a b c hab hbc
  simp only [priorityLE, decide_eq_true_eq] at *
  omega

/-- The comparator order is total. -/
theorem priorityLE_total : ∀ a b : PrioritizedEmail,
    priorityLE a b || priorityLE b a := by
  intro a b
  simp only [priorityLE, Bool.or_eq_true, decide_eq_true_eq]
  omega

/-- C2: on any merged list whose priorities all lie in the recognized
enum, the sorted output is non-increasing in the ordinal mapping
(high=3, medium=2, low=1), and the sort is stable: any two entries of
equal priority tier keep their relative order. -/
theorem sort_descending_and_stable :
    ∀ l : List PrioritizedEmail,
      (∀ e ∈ l, e.priority = "high" ∨ e.priority = "medium" ∨ e.priority = "low") →
      (sortByPriority l).Pairwise
        (fun a b => priorityOrder b.priority ≤ priorityOrder a.priority) ∧
      (∀ a b, List.Sublist [a, b] l →
        priorityOrder a.priority = priorityOrder b.priority →
        List.Sublist [a, b] (sortByPriority l)) := by
  intro l _henum
  constructor
  · have h := List.sorted_mergeSort priorityLE_trans priorityLE_total l
    exact h.imp fun hab => by simpa [priorityLE] using hab
  · intro a b hsub heq
    exact List.pair_sublist_mergeSort priorityLE_trans priorityLE_total
      (by simp [priorityLE, heq]) hsub

/-- Three merged records used to exercise the sort: two medium-priority
entries around a high-priority one. -/
def medA : PrioritizedEmail :=
  { id := "a", subject := "s1", «from» := "f1", date := "d1", snippet := "p1",
    body := "b1", priority := "medium", reasoning := "r1", gmailUrl := "u1" }

/-- High-priority demo record. -/
def highB : PrioritizedEmail :=
  { id := "b", subject := "s2", «from» := "f2", date := "d2", snippet := "p2",
    body := "b2", priority := "high", reasoning := "r2", gmailUrl := "u2" }

/-- Second medium-priority demo record. -/
def medC : PrioritizedEmail :=
  { id := "c", subject := "s3", «from» := "f3", date := "d3", snippet := "p3",
    body := "b3", priority := "medium", reasoning := "r3", gmailUrl := "u3" }

/-- Witness for C2 on a concrete batch: the output is non-increasing
and the two equal-priority entries keep their order. -/
theorem sort_descending_and_stable_witness :
    (sortByPriority [medA, highB, medC]).Pairwise
      (fun a b => priorityOrder b.priority ≤ priorityOrder a.priority) ∧
    List.Sublist [medA, medC] (sortByPriority [medA, highB, medC]) := by
  obtain ⟨hsorted, hstable⟩ := sort_descending_and_stable [medA, highB, medC]
    (by intro e he; fin_cases he <;> simp [medA, highB, medC])
  refine ⟨hsorted, hstable medA medC ?_ (by decide)⟩
  exact (List.Sublist.cons₂ medA (List.Sublist.cons highB
    (List.Sublist.cons₂ medC List.Sublist.slnil)))

/-- `dropWhile` skips a whole prefix on which the predicate holds. -/
theorem dropWhile_append_of_forall {α : Type} (p : α → Bool) :
    ∀ (l₁ l₂ : List α), (∀ a ∈ l₁, p a = true) →
      (l₁ ++ l₂).dropWhile p = l₂.dropWhile p
  | [], _, _ => rfl
  | a :: t, l₂, h => by
    rw [List.cons_append, List.dropWhile_cons, if_pos (h a (List.mem_cons_self a t))]
    exact dropWhile_append_of_forall p t l₂ fun x hx => h x (List.mem_cons_of_mem a hx)

/-- The classification reply quoted by the specification. -/
def exampleReply : String :=
  "Here is the result:\n[\x7b\"id\":\"a\",\"priority\":\"high\",\"reasoning\":\"urgent\"\x7d]\nThanks"

/-- C3: the reply parser takes the greedy span from the first `[` to
the last `]`; with no bracketed span it parses the raw text; a parse
failure on a well-formed request makes the analyze operation answer 500
with the format error and no priority set; and on the specification's
example reply the parse yields exactly one result, for id `a`. -/
theorem response_parser_contract :
    (∀ pre mid post : List Char, '[' ∉ pre → ']' ∉ post →
      firstBracketSpan (pre ++ '[' :: (mid ++ ']' :: post)) =
        some ('[' :: (mid ++ [']']))) ∧
    (∀ reply : String, firstBracketSpan reply.data = none →
      parseAnalysisJson reply = parseJsonTop reply.data) ∧
    (∀ (k tok : String) (emails : List NormalizedEmail) (reply : String),
      k ≠ "" → tok ≠ "" → emails ≠ [] →
      parseAnalysisJson reply = none →
      gmailAnalyze (some k) ⟨some tok, some emails⟩ (GeminiOutcome.text reply) =
        ⟨⟨500, some "Invalid response format from Gemini", none⟩, true⟩) ∧
    parsedResults exampleReply = some [⟨some "a", some "high", some "urgent"⟩] := by
  refine ⟨?_, ?_, ?_, ?_⟩
  · intro pre mid post hpre hpost
    have h1 : (pre ++ '[' :: (mid ++ ']' :: post)).dropWhile (· ≠ '[') =
        '[' :: (mid ++ ']' :: post) := by
      rw [dropWhile_append_of_forall _ pre _
        (fun a ha => decide_eq_true (by rintro rfl; exact hpre ha))]
      rw [List.dropWhile_cons, if_neg (by decide)]
    have h2 : ('[' :: (mid ++ ']' :: post)).reverse =
        post.reverse ++ (']' :: (mid.reverse ++ ['['])) := by
      simp [List.reverse_cons, List.reverse_append, List.append_assoc]
    have h3 : (post.reverse ++ (']' :: (mid.reverse ++ ['[']))).dropWhile (· ≠ ']') =
        ']' :: (mid.reverse ++ ['[']) := by
      rw [dropWhile_append_of_forall _ _ _
        (fun a ha => decide_eq_true
          (by rintro rfl; exact hpost (List.mem_reverse.mp ha)))]
      rw [List.dropWhile_cons, if_neg (by decide)]
    have h4 : (']' :: (mid.reverse ++ ['['])).reverse = '[' :: (mid ++ [']']) := by
      simp [List.reverse_cons, List.reverse_append]
    simp only [firstBracketSpan, h1, h2, h3, h4, List.isEmpty_cons]
    rfl
  · intro reply h
    simp only [parseAnalysisJson, h]
  · intro k tok emails reply hk htok hne hparse
    have h1 : jsFalsyStr (some k) = false := by simp [jsFalsyStr, hk]
    have h2 : invalidAnalyzeRequest ⟨some tok, some emails⟩ = false := by
      simp [invalidAnalyzeRequest, jsFalsyStr, htok, List.isEmpty_iff, hne]
    simp [gmailAnalyze, h1, h2, hparse]
  · rfl

/-- Witness for C3: the span extraction on a concrete reply and the 500
answer on a concrete unparseable reply. -/
theorem response_parser_contract_witness :
    firstBracketSpan (['x'] ++ '[' :: (['y'] ++ ']' :: ['z'])) =
      some ('[' :: (['y'] ++ [']'])) ∧
    gmailAnalyze (some "k") ⟨some "t", some [sampleEmail]⟩ (GeminiOutcome.text "oops") =
      ⟨⟨500, some "Invalid response format from Gemini", none⟩, true⟩ := by
  constructor
  · exact response_parser_contract.1 ['x'] ['y'] ['z'] (by decide) (by decide)
  · exact response_parser_contract.2.2.1 "k" "t" [sampleEmail] "oops"
      (by decide) (by decide) (by simp) rfl

/-- A content payload whose top-level blob is not valid base64
(length residue 3 with a character outside the alphabet). -/
def badPayload : GmailPayload := ⟨[], some "***", none⟩

/-- A message detail carrying the malformed payload. -/
def badDetail : MessageDetail := ⟨some badPayload, some "s"⟩

/-- C4 counterexample: on a malformed blob the decoder does not return
a string — it raises — and the enclosing List+Hydrate request aborts
with a 500 failure response instead of a (possibly partial) message
list. -/
theorem decoder_raises_and_aborts_request :
    bodyFromPayload badPayload = Except.error atobErrorMessage ∧
    gmailFetch (some "tok") none (ListingOutcome.ok (some ["m1"]))
        (fun _ => FetchOutcome.ok badDetail) =
      ⟨500, some atobErrorMessage, none⟩ := by
  exact ⟨rfl, rfl⟩

/-- If any processed message hydrates with a thrown decode, the whole
join rejects. -/
theorem hydrateAll_error_of_mem (detailOf : String → FetchOutcome) :
    ∀ (ids : List String) (id : String), id ∈ ids →
      ∀ d, detailOf id = FetchOutcome.ok d →
        (∃ msg, hydrateDetail id d = Except.error msg) →
        ∃ msg, hydrateAll detailOf ids = Except.error msg
  | [], _, hmem, _, _, _ => absurd hmem (List.not_mem_nil _)
  | id' :: rest, id, hmem, d, hd, ⟨msg, hmsg⟩ => by
    rcases List.mem_cons.mp hmem with rfl | htail
    · refine ⟨msg, ?_⟩
      simp only [hydrateAll, hd, hmsg, Except.map]
    · obtain ⟨msg', hmsg'⟩ :=
        hydrateAll_error_of_mem detailOf rest id htail d hd ⟨msg, hmsg⟩
      cases hdo : detailOf id' with
      | fail =>
        refine ⟨msg', ?_⟩
        simp only [hydrateAll, hdo, hmsg']
      | ok d' =>
        cases hh : hydrateDetail id' d' with
        | error e =>
          refine ⟨e, ?_⟩
          simp only [hydrateAll, hdo, hh, hmsg', Except.map]
        | ok r =>
          refine ⟨msg', ?_⟩
          simp only [hydrateAll, hdo, hh, hmsg', Except.map]

/-- C4 amended: the Body Decoder raises (rather than returning a
string) exactly on a truthy blob that fails base64 decoding, and such
a failure aborts the enclosing List+Hydrate request with a 500 error
response. -/
theorem decode_failure_aborts_fetch :
    (∀ (hs : List Header) (dt : String) (ps : Option (List MessagePart)),
      dt ≠ "" → decodeB64url dt = none →
      bodyFromPayload ⟨hs, some dt, ps⟩ = Except.error atobErrorMessage) ∧
    (∀ (tok : String) (mr : Option Nat) (ids : List String)
        (detailOf : String → FetchOutcome) (id : String) (d : MessageDetail),
      tok ≠ "" →
      id ∈ ids.take (mr.getD 10) →
      detailOf id = FetchOutcome.ok d →
      (∃ msg, hydrateDetail id d = Except.error msg) →
      ∃ e, gmailFetch (some tok) mr (ListingOutcome.ok (some ids)) detailOf =
        ⟨500, some e, none⟩) := by
  constructor
  · intro hs dt ps hne hdec
    have ht : truthyBlob (some dt) = true := by simp [truthyBlob, hne]
    simp [bodyFromPayload, ht, decodeOrThrow, hdec]
  · intro tok mr ids detailOf id d htok hmem hd herr
    obtain ⟨msg, hmsg⟩ :=
      hydrateAll_error_of_mem detailOf (ids.take (mr.getD 10)) id hmem d hd herr
    have h1 : jsFalsyStr (some tok) = false := by simp [jsFalsyStr, htok]
    refine ⟨msg, ?_⟩
    simp [gmailFetch, h1, hmsg]

/-- Witness for C4's amended claim at the concrete malformed payload. -/
theorem decode_failure_aborts_fetch_witness :
    bodyFromPayload ⟨[], some "***", none⟩ = Except.error atobErrorMessage ∧
    (gmailFetch (some "tok") none (ListingOutcome.ok (some ["m1"]))
        (fun _ => FetchOutcome.ok badDetail)).status = 500 ∧
    (gmailFetch (some "tok") none (ListingOutcome.ok (some ["m1"]))
        (fun _ => FetchOutcome.ok badDetail)).messages = none := by
  refine ⟨decode_failure_aborts_fetch.1 [] "***" none (by decide) rfl, ?_, ?_⟩ <;>
  · obtain ⟨e, he⟩ := decode_failure_aborts_fetch.2 "tok" none ["m1"]
      (fun _ => FetchOutcome.ok badDetail) "m1" badDetail
      (by decide) (by decide) rfl ⟨atobErrorMessage, rfl⟩
    rw [he]

/-- A payload whose only plain-text part sits nested one level down. -/
def nestedPayload : GmailPayload :=
  ⟨[], none,
    some [MessagePart.mk "multipart/alternative" none
      [MessagePart.mk "text/plain" (some "SGk=") []]]⟩

/-- C5 counterexample: the code scans only the immediate parts list, so
a plain-text part nested inside a container part is never found — the
body comes back empty although the specified depth-first scan would
decode it. -/
theorem flat_scan_misses_nested_part :
    bodyFromPayload nestedPayload = Except.ok "" ∧
    bodyDecoderSpec nestedPayload = "Hi" ∧
    ("Hi" : String) ≠ "" := by
  exact ⟨rfl, rfl, by decide⟩

/-- C5 amended: a truthy top-level blob is decoded and returned;
otherwise only the immediate parts list is scanned in order, the first
part with MIME type exactly `text/plain` and a truthy blob wins, and
the body is empty when no immediate part matches (or no parts array
exists) — nested sub-parts are never examined. -/
theorem body_scan_is_top_level_only :
    (∀ (hs : List Header) (dt : String) (ps : Option (List MessagePart)),
      dt ≠ "" → bodyFromPayload ⟨hs, some dt, ps⟩ = decodeOrThrow dt) ∧
    (∀ (hs : List Header) (d : Option String),
      truthyBlob d = false → bodyFromPayload ⟨hs, d, none⟩ = Except.ok "") ∧
    (∀ (hs : List Header) (d : Option String) (parts : List MessagePart),
      truthyBlob d = false →
      bodyFromPayload ⟨hs, d, some parts⟩ = scanParts parts) ∧
    (∀ (l₁ : List MessagePart) (part : MessagePart) (l₂ : List MessagePart),
      (∀ q ∈ l₁, isPlainMatch q = false) → isPlainMatch part = true →
      scanParts (l₁ ++ part :: l₂) = decodeOrThrow (part.data.getD "")) ∧
    (∀ parts : List MessagePart,
      (∀ q ∈ parts, isPlainMatch q = false) → scanParts parts = Except.ok "") := by
  refine ⟨?_, ?_, ?_, ?_, ?_⟩
  · intro hs dt ps hne
    have ht : truthyBlob (some dt) = true := by simp [truthyBlob, hne]
    simp [bodyFromPayload, ht]
  · intro hs d hfalse
    simp [bodyFromPayload, hfalse]
  · intro hs d parts hfalse
    simp [bodyFromPayload, hfalse]
  · intro l₁ part l₂ hnone hmatch
    induction l₁ with
    | nil => simp [scanParts, hmatch]
    | cons q t ih =>
      rw [List.cons_append, scanParts]
      rw [if_neg (by simp [hnone q (List.mem_cons_self q t)])]
      exact ih fun x hx => hnone x (List.mem_cons_of_mem q hx)
  · intro parts hnone
    induction parts with
    | nil => rfl
    | cons q t ih =>
      rw [scanParts, if_neg (by simp [hnone q (List.mem_cons_self q t)])]
      exact ih fun x hx => hnone x (List.mem_cons_of_mem q hx)

/-- A plain-text part and a non-matching HTML part used by the C5
witness. -/
def htmlPart : MessagePart := MessagePart.mk "text/html" (some "PGI+") []

/-- The matching plain-text part of the C5 witness. -/
def plainPart : MessagePart := MessagePart.mk "text/plain" (some "SGk=") []

/-- Witness for C5's amended claim: the first immediate plain-text part
after a non-matching part is the one decoded. -/
theorem body_scan_is_top_level_only_witness :
    scanParts ([htmlPart] ++ plainPart :: []) = decodeOrThrow (plainPart.data.getD "") ∧
    scanParts [htmlPart] = Except.ok "" ∧
    bodyFromPayload ⟨[], none, some [htmlPart, plainPart]⟩ = Except.ok "Hi" := by
  refine ⟨?_, ?_, ?_⟩
  · exact body_scan_is_top_level_only.2.2.2.1 [htmlPart] plainPart []
      (by intro q hq; fin_cases hq; rfl) rfl
  · exact body_scan_is_top_level_only.2.2.2.2 [htmlPart]
      (by intro q hq; fin_cases hq; rfl)
  · rfl

/-- A successfully hydrated record carries the message id it was
hydrated from. -/
theorem hydrateDetail_id : ∀ (m : String) (d : MessageDetail) (r : NormalizedEmail),
    hydrateDetail m d = Except.ok r → r.id = m := by
  intro m d r h
  unfold hydrateDetail at h
  split at h
  · exact absurd h (by simp)
  · cases h
    rfl

/-- When every successful detail hydrates cleanly, the join succeeds
and the filtered records are exactly the successes, in listing order. -/
theorem hydrateAll_ok_spec (detailOf : String → FetchOutcome) :
    ∀ ids : List String,
      (∀ m ∈ ids, ∀ d, detailOf m = FetchOutcome.ok d →
        ∃ r, hydrateDetail m d = Except.ok r) →
      ∃ entries, hydrateAll detailOf ids = Except.ok entries ∧
        (entries.filterMap id).map NormalizedEmail.id =
          ids.filter (fun m => fetchOk (detailOf m)) ∧
        (entries.filterMap id).length +
          ids.countP (fun m => !(fetchOk (detailOf m))) = ids.length := by
  intro ids
  induction ids with
  | nil => exact fun _ => ⟨[], rfl, by simp, by simp⟩
  | cons m rest ih =>
    intro h
    obtain ⟨entries, he, hmap, hlen⟩ :=
      ih fun x hx => h x (List.mem_cons_of_mem m hx)
    cases hdo : detailOf m with
    | fail =>
      refine ⟨none :: entries, ?_, ?_, ?_⟩
      · simp only [hydrateAll, hdo, he]
      · simp [List.filterMap_cons, hmap, List.filter_cons, hdo, fetchOk]
      · have hf : (!(fetchOk (detailOf m))) = true := by rw [hdo]; rfl
        simp [List.filterMap_cons, List.countP_cons, hf]
        omega
    | ok d =>
      obtain ⟨r, hr⟩ := h m (List.mem_cons_self m rest) d hdo
      have hid : r.id = m := hydrateDetail_id m d r hr
      refine ⟨some r :: entries, ?_, ?_, ?_⟩
      · simp only [hydrateAll, hdo, hr, Except.map, he]
      · simp [List.filterMap_cons, hmap, List.filter_cons, hdo, fetchOk, hid]
      · have hf : (!(fetchOk (detailOf m))) = false := by rw [hdo]; rfl
        simp [List.filterMap_cons, List.countP_cons, hf]
        omega

/-- C8: for a listing of N ids (within the result cap) where the failed
detail fetches are dropped and every successful detail hydrates
cleanly, the operation answers 200 with exactly N − M records — the
successes, in listing order — and no top-level error. -/
theorem hydrator_returns_successes_in_order :
    ∀ (tok : String) (mr : Option Nat) (ids : List String)
      (detailOf : String → FetchOutcome),
      tok ≠ "" →
      ids.length ≤ mr.getD 10 →
      (∀ m ∈ ids, ∀ d, detailOf m = FetchOutcome.ok d →
        ∃ r, hydrateDetail m d = Except.ok r) →
      ∃ msgs, gmailFetch (some tok) mr (ListingOutcome.ok (some ids)) detailOf =
          ⟨200, none, some msgs⟩ ∧
        msgs.length + ids.countP (fun m => !(fetchOk (detailOf m))) = ids.length ∧
        msgs.map NormalizedEmail.id = ids.filter (fun m => fetchOk (detailOf m)) := by
  intro tok mr ids detailOf htok hlen hok
  have htake : ids.take (mr.getD 10) = ids := List.take_of_length_le hlen
  obtain ⟨entries, he, hmap, hl⟩ := hydrateAll_ok_spec detailOf ids hok
  have h1 : jsFalsyStr (some tok) = false := by simp [jsFalsyStr, htok]
  refine ⟨entries.filterMap id, ?_, hl, hmap⟩
  simp [gmailFetch, h1, htake, he]

/-- A detail payload that hydrates cleanly. -/
def goodDetail : MessageDetail :=
  ⟨some ⟨[⟨"Subject", "Hello"⟩], some "SGk=", none⟩, some "sn"⟩

/-- Detail outcomes for the C8 witness: the middle message fails to
fetch, the others succeed. -/
def demoDetailOf : String → FetchOutcome :=
  fun m => if m = "b" then FetchOutcome.fail else FetchOutcome.ok goodDetail

/-- The records the C8 witness's successful ids hydrate to. -/
def goodRecord (m : String) : NormalizedEmail :=
  { id := m, subject := "Hello", «from» := "Unknown Sender", date := "",
    snippet := "sn", body := "Hi" }

/-- Witness for C8: three listed ids with one failed fetch give exactly
two records, in listing order, and a 200 response. -/
theorem hydrator_returns_successes_in_order_witness :
    gmailFetch (some "tok") (some 5) (ListingOutcome.ok (some ["a", "b", "c"]))
        demoDetailOf = ⟨200, none, some [goodRecord "a", goodRecord "c"]⟩ ∧
    ([goodRecord "a", goodRecord "c"] : List NormalizedEmail).length +
        (["a", "b", "c"].countP fun m => !(fetchOk (demoDetailOf m))) =
      (["a", "b", "c"] : List String).length ∧
    [goodRecord "a", goodRecord "c"].map NormalizedEmail.id =
      ["a", "b", "c"].filter fun m => fetchOk (demoDetailOf m) := by
  have hok : ∀ m ∈ (["a", "b", "c"] : List String), ∀ d,
      demoDetailOf m = FetchOutcome.ok d → ∃ r, hydrateDetail m d = Except.ok r := by
    intro m hm d hd
    fin_cases hm
    · simp only [demoDetailOf, if_neg (by decide : ¬("a" : String) = "b")] at hd
      cases hd
      exact ⟨_, rfl⟩
    · simp [demoDetailOf] at hd
    · simp only [demoDetailOf, if_neg (by decide : ¬("c" : String) = "b")] at hd
      cases hd
      exact ⟨_, rfl⟩
  obtain ⟨msgs, h1, h2, h3⟩ :=
    hydrator_returns_successes_in_order "tok" (some 5) ["a", "b", "c"] demoDetailOf
      (by decide) (by decide) hok
  have h4 : gmailFetch (some "tok") (some 5) (ListingOutcome.ok (some ["a", "b", "c"]))
      demoDetailOf = ⟨200, none, some [goodRecord "a", goodRecord "c"]⟩ := rfl
  have hmsgs : msgs = [goodRecord "a", goodRecord "c"] := by
    have := h1.symm.trans h4
    simpa using this
  subst hmsgs
  exact ⟨h4, h2, h3⟩

end EmailScribe
